import Mathlib

/-!
Shallow embedding of the multi-page layout and transform engine of
`src/embed_pdf.rs` (crate `hipdf`, module `embed_pdf`).

Modelling conventions:
* Rust `f32` values are modelled by exact rationals `ℚ` in the layout
  arithmetic (every operation the claims touch is a field operation or
  `min`), and by real numbers `ℝ` in the operator emitter, where the
  trigonometric functions of `place_xobject` live.  The trig functions and
  the constant π are passed as parameters to keep the definitions
  computable; the theorems instantiate them with `Real.cos`, `Real.sin`
  and `Real.pi`.
* Rust `usize` is modelled by `ℕ`.
* A Rust panic (index out of bounds in `calculate_page_positions`) is
  modelled by `Option.none`.
* The external `lopdf` collaborator is modelled only as far as the claims
  need it: an object graph `ℕ → Option PdfObject` for `get_object`, with a
  stream's `decompressed_content()` outcome recorded as an `Option` field.
-/

namespace Hipdf

/-- Order in which to fill a grid (`GridFillOrder` in `embed_pdf.rs`). -/
inductive GridFillOrder where
  | rowFirst
  | columnFirst

/-- Custom layout strategy (`CustomLayoutStrategy` in `embed_pdf.rs`):
a position function `(page_index, page_width, page_height) → (x, y)` and a
scale function `page_index → (scale_x, scale_y)`. -/
structure CustomLayoutStrategy where
  position_fn : ℕ → ℚ → ℚ → ℚ × ℚ
  scale_fn : ℕ → ℚ × ℚ

/-- Layout strategy for multi-page embedded PDFs (`MultiPageLayout`). -/
inductive MultiPageLayout where
  | firstPageOnly
  | specificPage (page : ℕ)
  | vertical (gap : ℚ)
  | horizontal (gap : ℚ)
  | grid (columns : ℕ) (gap_x gap_y : ℚ) (fill_order : GridFillOrder)
  | custom (strategy : CustomLayoutStrategy)

/-- Page range specification (`PageRange`). -/
inductive PageRange where
  | single (page : ℕ)
  | range (start finish : ℕ)
  | pages (specific : List ℕ)
  | all

/-- Options for embedding a PDF (`EmbedOptions`).  The Rust field
`preserve_aspect_ratio` is called `preserveAspect` here. -/
structure EmbedOptions where
  position : ℚ × ℚ
  scale : ℚ × ℚ
  rotation : ℚ
  opacity : ℚ
  layout : MultiPageLayout
  max_width : Option ℚ
  max_height : Option ℚ
  preserveAspect : Bool
  clip_bounds : Option (ℚ × ℚ × ℚ × ℚ)
  page_range : Option PageRange

/-- Translation of `PdfEmbedder::calculate_scale` (embed_pdf.rs:732-754):
clamp the requested scale by the optional `max_width` / `max_height`
constraints, propagating a clamp to the other axis when
`preserve_aspect_ratio` is set.  Width constraint is applied first. -/
def calculate_scale (width height : ℚ) (options : EmbedOptions) : ℚ × ℚ :=
  let scale_x := options.scale.1
  let scale_y := options.scale.2
  let wstep :=
    match options.max_width with
    | some max_w =>
      let required_scale_x := max_w / width
      let scale_x := min scale_x required_scale_x
      if options.preserveAspect then (scale_x, scale_x) else (scale_x, scale_y)
    | none => (scale_x, scale_y)
  match options.max_height with
  | some max_h =>
    let required_scale_y := max_h / height
    let scale_y := min wstep.2 required_scale_y
    if options.preserveAspect then (scale_y, scale_y) else (wstep.1, scale_y)
  | none => wstep

/-- Resolution of a `PageRange` into a list of page indices: the `match`
at embed_pdf.rs:640-645.  `range start finish` collects
`start ..= min finish (total_pages - 1)` (subtraction on `ℕ` is
truncated; the Rust `usize` underflow for `total_pages = 0` is outside
the scope of the claims). -/
def resolve_range (range : PageRange) (total_pages : ℕ) : List ℕ :=
  match range with
  | .single page => [page]
  | .range start finish => List.range' start (min finish (total_pages - 1) + 1 - start)
  | .pages specific => specific
  | .all => List.range total_pages

/-- Layout-specific filtering of the resolved page list: the `match` at
embed_pdf.rs:648-660.  `specificPage page` replaces the list by `[page]`
only when `page < total_pages`; otherwise the list is left unchanged. -/
def filter_layout (layout : MultiPageLayout) (total_pages : ℕ) (pages : List ℕ) : List ℕ :=
  match layout with
  | .firstPageOnly =>
    match pages with
    | [] => []
    | page :: _ => [page]
  | .specificPage page => if page < total_pages then [page] else pages
  | _ => pages

/-- Translation of `PdfEmbedder::determine_pages` (embed_pdf.rs:637-663). -/
def determine_pages (options : EmbedOptions) (total_pages : ℕ) : List ℕ :=
  filter_layout options.layout total_pages
    (resolve_range (options.page_range.getD .all) total_pages)

/-- One placement produced by the engine:
`(page_num, x, y, scale_x, scale_y)`. -/
abbrev Placement := ℕ × ℚ × ℚ × ℚ × ℚ

/-- Body of the loop of `PdfEmbedder::calculate_page_positions`
(embed_pdf.rs:676-726) for the `idx`-th entry of `pages`.  The indexing
`info.page_dimensions[page_num]` at embed_pdf.rs:677 panics when
`page_num` is out of bounds; the panic is modelled by `none`.  Prior
pages (the `pages[i]` with `i < idx` read by the vertical/horizontal
branches) were already indexed successfully at their own iteration, so
their lookup is modelled with a default that is never reached. -/
def pagePos (dims : List (ℚ × ℚ)) (options : EmbedOptions) (pages : List ℕ)
    (idx : ℕ) : Option Placement :=
  let page_num := pages.getD idx 0
  match dims[page_num]? with
  | none => none
  | some pd =>
    let page_w := pd.1
    let page_h := pd.2
    let sc := calculate_scale page_w page_h options
    let scale_x := sc.1
    let scale_y := sc.2
    let scaled_w := page_w * scale_x
    let scaled_h := page_h * scale_y
    let base_x := options.position.1
    let base_y := options.position.2
    let xy :=
      match options.layout with
      | .firstPageOnly | .specificPage _ => (base_x, base_y)
      | .vertical gap =>
        let total_height : ℚ :=
          (((List.range idx).map
            (fun i => (dims.getD (pages.getD i 0) (0, 0)).2 * scale_y + gap)).sum)
        (base_x, base_y - total_height)
      | .horizontal gap =>
        let total_width : ℚ :=
          (((List.range idx).map
            (fun i => (dims.getD (pages.getD i 0) (0, 0)).1 * scale_x + gap)).sum)
        (base_x + total_width, base_y)
      | .grid columns gap_x gap_y fill_order =>
        let rc :=
          match fill_order with
          | .rowFirst => (idx / columns, idx % columns)
          | .columnFirst => (idx % columns, idx / columns)
        (base_x + (rc.2 : ℚ) * (scaled_w + gap_x),
         base_y - (rc.1 : ℚ) * (scaled_h + gap_y))
      | .custom strategy =>
        let off := strategy.position_fn idx page_w page_h
        (base_x + off.1, base_y + off.2)
    some (page_num, xy.1, xy.2, scale_x, scale_y)

/-- Loop of `calculate_page_positions` over the enumeration indices:
collect the placement of every index, propagating the panic (`none`) of
any out-of-bounds page lookup. -/
def positionsAux (dims : List (ℚ × ℚ)) (options : EmbedOptions)
    (pages : List ℕ) : List ℕ → Option (List Placement)
  | [] => some []
  | idx :: rest =>
    match pagePos dims options pages idx with
    | none => none
    | some p =>
      match positionsAux dims options pages rest with
      | none => none
      | some ps => some (p :: ps)

/-- Translation of `PdfEmbedder::calculate_page_positions`
(embed_pdf.rs:666-729).  `none` models the Rust panic raised by the
first out-of-bounds page index. -/
def calculate_page_positions (pages : List ℕ) (dims : List (ℚ × ℚ))
    (options : EmbedOptions) : Option (List Placement) :=
  positionsAux dims options pages (List.range pages.length)

/-- Operand of a content-stream operator (`lopdf::Object` restricted to the
two shapes the emitter produces: numbers and names). -/
inductive Operand (α : Type) where
  | num (value : α)
  | name (s : String)

/-- Content-stream operator (`lopdf::content::Operation`): an operator
string together with its operand list. -/
structure Operation (α : Type) where
  operator : String
  operands : List (Operand α)

/-- Translation of `PdfEmbedder::place_xobject` (embed_pdf.rs:499-548).
The trig functions `cosf`, `sinf` and the constant `piv` (π) are
parameters so the definition stays computable; the theorems instantiate
them at `Real.cos`, `Real.sin`, `Real.pi`.  The `opacity < 1.0` branch of
the source emits no operator, faithfully to the code. -/
def place_xobject {α : Type} [Field α] (cosf sinf : α → α) (piv : α)
    (xobject_name : String) (x y scale_x scale_y rotation opacity : α) :
    List (Operation α) :=
  let angle_rad := rotation * piv / 180
  let c := cosf angle_rad
  let s := sinf angle_rad
  [⟨"q", []⟩,
   ⟨"cm", [.num (scale_x * c), .num (scale_x * s), .num (-scale_y * s),
           .num (scale_y * c), .num x, .num y]⟩,
   ⟨"Do", [.name xobject_name]⟩,
   ⟨"Q", []⟩]

/-- Operator-assembly phase of `PdfEmbedder::embed_pdf`
(embed_pdf.rs:270-311): the optional clip prelude (`q re W n`), then the
placement operators of every placed page in order (each placement carries
its generated XObject name and its `(x, y, scale_x, scale_y)`), then the
matching `Q` when a clip region was set. -/
def embed_operations {α : Type} [Field α] (cosf sinf : α → α) (piv : α)
    (clip : Option (α × α × α × α))
    (placements : List (String × α × α × α × α))
    (rotation opacity : α) : List (Operation α) :=
  (match clip with
   | some c =>
     [⟨"q", []⟩,
      ⟨"re", [.num c.1, .num c.2.1, .num c.2.2.1, .num c.2.2.2]⟩,
      ⟨"W", []⟩,
      ⟨"n", []⟩]
   | none => []) ++
  placements.flatMap
    (fun p => place_xobject cosf sinf piv p.1 p.2.1 p.2.2.1 p.2.2.2.1 p.2.2.2.2
      rotation opacity) ++
  (match clip with
   | some _ => [⟨"Q", []⟩]
   | none => [])

/-- Fragment of the `lopdf` object model seen by
`PdfEmbedder::extract_content_bytes`: references, streams, arrays, and a
catch-all for every other object kind.  A stream records its raw
`content` bytes and the outcome of the collaborator's
`decompressed_content()` call (`none` = decompression failed). -/
inductive PdfObject where
  | reference (id : ℕ)
  | stream (content : List ℕ) (decompressed : Option (List ℕ))
  | array (items : List PdfObject)
  | other

/-- Translation of `PdfEmbedder::extract_content_bytes`
(embed_pdf.rs:389-415), with a fuel argument bounding the reference-chain
depth (the Rust recursion can only diverge through reference cycles;
`none` models that divergence).  A stream contributes its decompressed
bytes, falling back to its raw bytes when decompression failed; an
unresolvable reference contributes nothing; an array contributes each
item's bytes followed by a newline (byte 10). -/
def extract_content_bytes (doc : ℕ → Option PdfObject) :
    ℕ → PdfObject → Option (List ℕ)
  | 0, _ => none
  | fuel + 1, .reference id =>
    match doc id with
    | some content_obj => extract_content_bytes doc fuel content_obj
    | none => some []
  | _ + 1, .stream content decompressed => some (decompressed.getD content)
  | fuel + 1, .array items =>
    items.foldr
      (fun item acc =>
        match extract_content_bytes doc fuel item with
        | none => none
        | some content =>
          match acc with
          | none => none
          | some tail => some (content ++ [10] ++ tail))
      (some [])
  | _ + 1, .other => some []

/-- Placement phase of `PdfEmbedder::embed_pdf` (embed_pdf.rs:263-267):
resolve the page selection, then compute the placements; `none` models a
panic. -/
def embed_positions (page_count : ℕ) (dims : List (ℚ × ℚ))
    (options : EmbedOptions) : Option (List Placement) :=
  calculate_page_positions (determine_pages options page_count) dims options

/-- Spec-side restatement of the Scale Resolver algorithm, written from the
words of claim C2 / spec §4.2: start from the requested `(sx, sy)`; if
`max_width` is set take `sx' = min(sx, max_width/width)` and, when
`preserve_aspect_ratio`, set `sy = sx'`; then, if `max_height` is set, take
`sy'' = min(sy, max_height/height)` and, when `preserve_aspect_ratio`, set
`sx = sy''`. -/
def scale_spec (width height : ℚ) (options : EmbedOptions) : ℚ × ℚ :=
  let s0 := options.scale
  let s1 :=
    match options.max_width with
    | some max_w =>
      let sx' := min s0.1 (max_w / width)
      (sx', if options.preserveAspect then sx' else s0.2)
    | none => s0
  match options.max_height with
  | some max_h =>
    let sy'' := min s1.2 (max_h / height)
    (if options.preserveAspect then sy'' else s1.1, sy'')
  | none => s1

/-- Options used for the C3 counterexample: vertical stack with gap 0,
`max_height = 100`, no aspect preservation, so pages of different heights
resolve to different scales. -/
def vOptsCex : EmbedOptions :=
  { position := (0, 0), scale := (1, 1), rotation := 0, opacity := 1,
    layout := .vertical 0, max_width := none, max_height := some 100,
    preserveAspect := false, clip_bounds := none, page_range := none }

/-- Options used for the C3 witness: vertical stack with gap 5 and no
size constraints. -/
def vOptsW : EmbedOptions :=
  { position := (0, 0), scale := (1, 1), rotation := 0, opacity := 1,
    layout := .vertical 5, max_width := none, max_height := none,
    preserveAspect := true, clip_bounds := none, page_range := none }

/-- Options used for the C4 witness: 3-column row-first grid with gaps
2 and 3 and no size constraints. -/
def gOptsW : EmbedOptions :=
  { position := (0, 0), scale := (1, 1), rotation := 0, opacity := 1,
    layout := .grid 3 2 3 .rowFirst, max_width := none, max_height := none,
    preserveAspect := true, clip_bounds := none, page_range := none }

/-- Custom strategy used for the C5 divergence theorem: a deterministic
position function and a constant scale function (1/10, 1/10). -/
def customStratCex : CustomLayoutStrategy :=
  { position_fn := fun i _ _ => ((i : ℚ) * 10, (i : ℚ) * 20),
    scale_fn := fun _ => (1/10, 1/10) }

/-- Options used for the C5 divergence theorem: Custom layout with a
max_width constraint that the claim says must not be applied. -/
def customOptsCex : EmbedOptions :=
  { position := (7, 9), scale := (1, 1), rotation := 0, opacity := 1,
    layout := .custom customStratCex, max_width := some 50,
    max_height := none, preserveAspect := true, clip_bounds := none,
    page_range := none }

/-- Options used for the C6 counterexample: layout `specificPage 5`, no
page range (hence all pages). -/
def specificPageOptsCex : EmbedOptions :=
  { position := (0, 0), scale := (1, 1), rotation := 0, opacity := 1,
    layout := .specificPage 5, max_width := none, max_height := none,
    preserveAspect := true, clip_bounds := none, page_range := none }

/-- Options used for the C7 divergence theorem: page range `single 10`
with the default `firstPageOnly` layout. -/
def singleOutOfRangeOpts : EmbedOptions :=
  { position := (0, 0), scale := (1, 1), rotation := 0, opacity := 1,
    layout := .firstPageOnly, max_width := none, max_height := none,
    preserveAspect := true, clip_bounds := none,
    page_range := some (.single 10) }

/-- Dimension table of a 5-page source document. -/
def fivePageDims : List (ℚ × ℚ) := List.replicate 5 (612, 792)

/-- Options used for the C10 counterexample: negative requested scale
with aspect preservation and a loose `max_width`. -/
def negScaleOpts : EmbedOptions :=
  { position := (0, 0), scale := (-2, -3), rotation := 0, opacity := 1,
    layout := .firstPageOnly, max_width := some 1000, max_height := none,
    preserveAspect := true, clip_bounds := none, page_range := none }

/-- Options used for the C10 witness: a thumbnail-style request with
`max_width = 50` on a 100-wide page. -/
def thumbOpts : EmbedOptions :=
  { position := (0, 0), scale := (1, 1), rotation := 0, opacity := 1,
    layout := .firstPageOnly, max_width := some 50, max_height := none,
    preserveAspect := true, clip_bounds := none, page_range := none }

/-! Theorems -/

/-- C1: every placement emitted by `place_xobject` with scale `(sx, sy)`,
rotation `θ` degrees (converted to radians) and position `(tx, ty)` carries a
`cm` operator whose six operands are exactly
`[sx·cos θ', sx·sin θ', −sy·sin θ', sy·cos θ', tx, ty]` with
`θ' = θ·π/180`; in particular with `θ = 0` the matrix is
`[sx, 0, 0, sy, tx, ty]`. -/
theorem place_xobject_cm_matrix (xobject_name : String)
    (tx ty sx sy θ opacity : ℝ) :
    place_xobject Real.cos Real.sin Real.pi xobject_name tx ty sx sy θ opacity =
      [⟨"q", []⟩,
       ⟨"cm", [.num (sx * Real.cos (θ * Real.pi / 180)),
               .num (sx * Real.sin (θ * Real.pi / 180)),
               .num (-sy * Real.sin (θ * Real.pi / 180)),
               .num (sy * Real.cos (θ * Real.pi / 180)),
               .num tx, .num ty]⟩,
       ⟨"Do", [.name xobject_name]⟩,
       ⟨"Q", []⟩]
    ∧ place_xobject Real.cos Real.sin Real.pi xobject_name tx ty sx sy 0 opacity =
      [⟨"q", []⟩,
       ⟨"cm", [.num sx, .num 0, .num 0, .num sy, .num tx, .num ty]⟩,
       ⟨"Do", [.name xobject_name]⟩,
       ⟨"Q", []⟩] := by
  refine ⟨rfl, ?_⟩
  simp [place_xobject]

/-- C2: `calculate_scale` follows the spec's width-then-height clamping
algorithm for every page size and every options value; on a 800×600 page
with requested scale (1,1), `max_width = 400`, `max_height = 200` and
aspect preservation it yields (1/3, 1/3); and with neither constraint set
the requested scale passes through unchanged. -/
theorem calculate_scale_follows_spec :
    (∀ (width height : ℚ) (options : EmbedOptions),
      calculate_scale width height options = scale_spec width height options)
    ∧ calculate_scale 800 600
        { position := (0, 0), scale := (1, 1), rotation := 0, opacity := 1,
          layout := .firstPageOnly, max_width := some 400,
          max_height := some 200, preserveAspect := true,
          clip_bounds := none, page_range := none } = (1/3, 1/3)
    ∧ (∀ (width height : ℚ) (options : EmbedOptions),
        options.max_width = none → options.max_height = none →
        calculate_scale width height options = options.scale) := by
  refine ⟨?_, by norm_num [calculate_scale, min_def], ?_⟩
  · intro width height options
    unfold calculate_scale scale_spec
    cases hW : options.max_width <;> cases hH : options.max_height <;>
      cases hP : options.preserveAspect <;> simp [hP]
  · intro width height options hW hH
    unfold calculate_scale
    simp [hW, hH]

/-- Witness for C2: the pass-through clause of
`calculate_scale_follows_spec` applied at a concrete unconstrained
request. -/
theorem calculate_scale_follows_spec_witness :
    calculate_scale 123 456
      { position := (0, 0), scale := (2, 3), rotation := 0, opacity := 1,
        layout := .firstPageOnly, max_width := none, max_height := none,
        preserveAspect := true, clip_bounds := none, page_range := none } =
      (2, 3) :=
  calculate_scale_follows_spec.2.2 123 456 _ rfl rfl

/-- Helper: the sum of a function that is constant on `List.range n`. -/
theorem sum_map_range_const {f : ℕ → ℚ} {n : ℕ} {c : ℚ}
    (h : ∀ i < n, f i = c) : ((List.range n).map f).sum = n * c := by
  induction n with
  | zero => simp
  | succ m ih =>
    rw [List.range_succ, List.map_append, List.sum_append,
      ih (fun i hi => h i (Nat.lt_succ_of_lt hi))]
    simp [h m (Nat.lt_succ_self m)]
    ring

/-- C3 counterexample: with pages `[0, 1]` of dimensions 100×100 and
100×200 under `max_height = 100`, page 0 resolves to scale_y 1 and page 1
to scale_y 1/2; the code places page 1 at y = −50 (prior height 100 times
the *current* page's scale_y 1/2), while the claim's formula (prior page's
own resolved scale) predicts y = −(100·1 + 0) = −100. -/
theorem vertical_prior_scale_cex :
    calculate_page_positions [0, 1] [(100, 100), (100, 200)] vOptsCex =
      some [(0, 0, 0, 1, 1), (1, 0, -50, 1, 1/2)]
    ∧ (calculate_scale 100 100 vOptsCex).2 = 1
    ∧ (0 : ℚ) - (100 * (calculate_scale 100 100 vOptsCex).2 + 0) = -100
    ∧ ((-50 : ℚ) ≠ -100) := by
  refine ⟨?_, ?_, ?_, by norm_num⟩
  · norm_num [calculate_page_positions, List.range_succ, positionsAux,
      pagePos, calculate_scale, vOptsCex, min_def]
  · norm_num [calculate_scale, vOptsCex, min_def]
  · norm_num [calculate_scale, vOptsCex, min_def]

/-- C3 amended: under the `vertical gap` layout the `idx`-th placement has
x = base_x and y = base_y minus the sum over strictly-prior selected pages
of (that prior page's height × the *currently placed* page's resolved
scale_y + gap); in particular, when every prior page's height scaled by the
current page's scale_y equals a common value h, the y-offset from base is
idx·(h + gap) downward. -/
theorem vertical_layout_offset (pages : List ℕ) (dims : List (ℚ × ℚ))
    (options : EmbedOptions) (gap : ℚ) (idx : ℕ) (page_w page_h : ℚ)
    (hlayout : options.layout = .vertical gap)
    (hdim : dims[pages.getD idx 0]? = some (page_w, page_h)) :
    pagePos dims options pages idx =
      some (pages.getD idx 0, options.position.1,
        options.position.2 -
          ((List.range idx).map (fun i =>
            (dims.getD (pages.getD i 0) (0, 0)).2 *
              (calculate_scale page_w page_h options).2 + gap)).sum,
        (calculate_scale page_w page_h options).1,
        (calculate_scale page_w page_h options).2)
    ∧ ∀ h : ℚ, (∀ i < idx,
        (dims.getD (pages.getD i 0) (0, 0)).2 *
          (calculate_scale page_w page_h options).2 + gap = h + gap) →
      pagePos dims options pages idx =
        some (pages.getD idx 0, options.position.1,
          options.position.2 - idx * (h + gap),
          (calculate_scale page_w page_h options).1,
          (calculate_scale page_w page_h options).2) := by
  have hmain : pagePos dims options pages idx =
      some (pages.getD idx 0, options.position.1,
        options.position.2 -
          ((List.range idx).map (fun i =>
            (dims.getD (pages.getD i 0) (0, 0)).2 *
              (calculate_scale page_w page_h options).2 + gap)).sum,
        (calculate_scale page_w page_h options).1,
        (calculate_scale page_w page_h options).2) := by
    simp only [pagePos]
    rw [hdim, hlayout]
  refine ⟨hmain, fun h hall => ?_⟩
  rw [hmain, sum_map_range_const hall]

/-- Witness for C3: `vertical_layout_offset` applied to page list `[0, 0]`
with one 10×20 page, gap 5, at index 0. -/
theorem vertical_layout_offset_witness :
    pagePos [((10 : ℚ), (20 : ℚ))] vOptsW [0, 0] 0 =
      some (0, 0, (0 : ℚ) - (0 : ℕ) * ((20 : ℚ) + 5), 1, 1) := by
  have h := (vertical_layout_offset [0, 0] [((10 : ℚ), (20 : ℚ))] vOptsW 5 0
    10 20 rfl rfl).2 20 (by simp)
  exact h

/-- C4: under the `grid columns gap_x gap_y fill_order` layout with
`columns > 0`, the `idx`-th placement sits at
x = base_x + col·(scaled_width + gap_x) and
y = base_y − row·(scaled_height + gap_y) with
`(row, col) = (idx / columns, idx % columns)` for `rowFirst` and
`(row, col) = (idx % columns, idx / columns)` for `columnFirst`; under
`columnFirst` the `columns` parameter bounds the row count. -/
theorem grid_layout_position (pages : List ℕ) (dims : List (ℚ × ℚ))
    (options : EmbedOptions) (columns : ℕ) (gap_x gap_y : ℚ)
    (fill_order : GridFillOrder) (idx : ℕ) (page_w page_h : ℚ)
    (hcols : 0 < columns)
    (hlayout : options.layout = .grid columns gap_x gap_y fill_order)
    (hdim : dims[pages.getD idx 0]? = some (page_w, page_h)) :
    (fill_order = .rowFirst →
      pagePos dims options pages idx =
        some (pages.getD idx 0,
          options.position.1 + ((idx % columns : ℕ) : ℚ) *
            (page_w * (calculate_scale page_w page_h options).1 + gap_x),
          options.position.2 - ((idx / columns : ℕ) : ℚ) *
            (page_h * (calculate_scale page_w page_h options).2 + gap_y),
          (calculate_scale page_w page_h options).1,
          (calculate_scale page_w page_h options).2))
    ∧ (fill_order = .columnFirst →
      pagePos dims options pages idx =
        some (pages.getD idx 0,
          options.position.1 + ((idx / columns : ℕ) : ℚ) *
            (page_w * (calculate_scale page_w page_h options).1 + gap_x),
          options.position.2 - ((idx % columns : ℕ) : ℚ) *
            (page_h * (calculate_scale page_w page_h options).2 + gap_y),
          (calculate_scale page_w page_h options).1,
          (calculate_scale page_w page_h options).2))
    ∧ (fill_order = .columnFirst → idx % columns < columns) := by
  refine ⟨?_, ?_, fun _ => Nat.mod_lt _ hcols⟩ <;>
    · intro hf
      subst hf
      simp only [pagePos]
      rw [hdim, hlayout]

/-- Witness for C4: `grid_layout_position` applied at flat index 4 of a
3-column row-first grid of 10×10 pages. -/
theorem grid_layout_position_witness :
    pagePos [((10 : ℚ), (10 : ℚ))] gOptsW [0, 0, 0, 0, 0] 4 =
      some (0, (0 : ℚ) + ((4 % 3 : ℕ) : ℚ) * ((10 : ℚ) * 1 + 2),
        (0 : ℚ) - ((4 / 3 : ℕ) : ℚ) * ((10 : ℚ) * 1 + 3), 1, 1) := by
  have h := grid_layout_position [0, 0, 0, 0, 0] [((10 : ℚ), (10 : ℚ))] gOptsW
    3 2 3 .rowFirst 4 10 10 (by decide) rfl rfl
  exact h.1 rfl

/-- C5 (code divergence): on a single 100×100 page under the Custom
strategy with `scale_fn` constantly (1/10, 1/10) and `max_width = 50`,
the code's placement carries scale (1/2, 1/2) — the Scale Resolver
output, max-width constraint included — and `scale_fn` is never
consulted, while the position does follow `position_fn` added to the base
position. -/
theorem custom_scale_fn_ignored :
    calculate_page_positions [0] [(100, 100)] customOptsCex =
      some [(0, 7, 9, 1/2, 1/2)]
    ∧ customStratCex.scale_fn 0 = (1/10, 1/10)
    ∧ ((1/2 : ℚ), (1/2 : ℚ)) ≠ (1/10, 1/10) := by
  refine ⟨?_, rfl, by norm_num⟩
  norm_num [calculate_page_positions, List.range_succ, positionsAux, pagePos,
    calculate_scale, customOptsCex, customStratCex, min_def]

/-- C6 counterexample: `specificPage 5` against a 3-page source leaves
the resolved list `[0, 1, 2]` unchanged instead of yielding the empty
list the claim predicts. -/
theorem specific_page_out_of_range_cex :
    determine_pages specificPageOptsCex 3 = [0, 1, 2]
    ∧ ([0, 1, 2] : List ℕ) ≠ [] := by
  refine ⟨rfl, by decide⟩

/-- C6 amended: the strategy-level filtering step truncates the resolved
list to its first element (or leaves it empty) under `firstPageOnly`;
under `specificPage i` it replaces the list with `[i]` when
`i < total_pages` and otherwise leaves the resolved list unchanged. -/
theorem layout_filtering (pages : List ℕ) (total_pages : ℕ) :
    filter_layout .firstPageOnly total_pages pages = pages.take 1
    ∧ (∀ i, i < total_pages →
        filter_layout (.specificPage i) total_pages pages = [i])
    ∧ (∀ i, ¬ i < total_pages →
        filter_layout (.specificPage i) total_pages pages = pages) := by
  refine ⟨?_, fun i hi => by simp [filter_layout, hi],
    fun i hi => by simp [filter_layout, hi]⟩
  cases pages <;> rfl

/-- Witness for C6: `layout_filtering` applied at the list `[0, 1, 2]`
with 3 total pages, once with an in-range and once with an out-of-range
specific page. -/
theorem layout_filtering_witness :
    filter_layout (.specificPage 1) 3 [0, 1, 2] = [1]
    ∧ filter_layout (.specificPage 7) 3 [0, 1, 2] = [0, 1, 2] :=
  ⟨(layout_filtering [0, 1, 2] 3).2.1 1 (by decide),
   (layout_filtering [0, 1, 2] 3).2.2 7 (by decide)⟩

/-- C7 (code divergence): `PageRange::Single(10)` against a 5-page source
resolves to the selection `[10]`, and the placement computation then hits
the out-of-bounds read `page_dimensions[10]` (embed_pdf.rs:677) — a Rust
panic, modelled by `none` — before the explicit not-found error of
`import_page_as_xobject` could ever be reached. -/
theorem single_out_of_range_panics :
    determine_pages singleOutOfRangeOpts 5 = [10]
    ∧ embed_positions 5 fivePageDims singleOutOfRangeOpts = none := by
  refine ⟨rfl, rfl⟩

/-- C8 counterexample: a 1-page embed with a clip region emits 9
operators (`q re W n` before the placements, the 4 placement operators,
and the matching `Q` after), not the 4 + 4 = 8 the claim states. -/
theorem clip_operator_count_cex :
    (embed_operations Real.cos Real.sin Real.pi (some (0, 0, 10, 10))
      [("XO1", (5 : ℝ), 5, 1, 1)] 0 1).length = 9
    ∧ (9 : ℕ) ≠ 4 + 4 := ⟨rfl, by decide⟩

/-- C8 amended: each placed page contributes exactly the 4 operators
`q cm Do Q`, so an n-page embed without clip region emits exactly 4·n
operators (4 for a 1-page embed); a clip region wraps the entire
multi-page sequence — the 4 clip-setup operators `q re W n` once before
all placements and the matching restore `Q` once after — for a total of
4·n + 5 operators (9 for a 1-page embed). -/
theorem embed_operator_sequence
    (placements : List (String × ℝ × ℝ × ℝ × ℝ))
    (clip_x clip_y clip_w clip_h rotation opacity : ℝ) :
    (∀ (nm : String) (x y sx sy : ℝ),
      (place_xobject Real.cos Real.sin Real.pi nm x y sx sy rotation
        opacity).map Operation.operator = ["q", "cm", "Do", "Q"])
    ∧ embed_operations Real.cos Real.sin Real.pi none placements rotation
        opacity =
      placements.flatMap (fun p =>
        place_xobject Real.cos Real.sin Real.pi p.1 p.2.1 p.2.2.1 p.2.2.2.1
          p.2.2.2.2 rotation opacity)
    ∧ (embed_operations Real.cos Real.sin Real.pi none placements rotation
        opacity).length = 4 * placements.length
    ∧ embed_operations Real.cos Real.sin Real.pi
        (some (clip_x, clip_y, clip_w, clip_h)) placements rotation opacity =
      [⟨"q", []⟩,
       ⟨"re", [.num clip_x, .num clip_y, .num clip_w, .num clip_h]⟩,
       ⟨"W", []⟩, ⟨"n", []⟩]
      ++ embed_operations Real.cos Real.sin Real.pi none placements rotation
          opacity
      ++ [⟨"Q", []⟩]
    ∧ (embed_operations Real.cos Real.sin Real.pi
        (some (clip_x, clip_y, clip_w, clip_h)) placements rotation
        opacity).length = 4 * placements.length + 5 := by
  have hlen : ∀ ps : List (String × ℝ × ℝ × ℝ × ℝ),
      (ps.flatMap (fun p =>
        place_xobject Real.cos Real.sin Real.pi p.1 p.2.1 p.2.2.1 p.2.2.2.1
          p.2.2.2.2 rotation opacity)).length = 4 * ps.length := by
    intro ps
    induction ps with
    | nil => rfl
    | cons p ps ih =>
      have h4 : (place_xobject Real.cos Real.sin Real.pi p.1 p.2.1 p.2.2.1
          p.2.2.2.1 p.2.2.2.2 rotation opacity).length = 4 := rfl
      rw [List.flatMap_cons, List.length_append, ih, h4, List.length_cons]
      ring
  have h2eq : embed_operations Real.cos Real.sin Real.pi none placements
      rotation opacity =
      placements.flatMap (fun p =>
        place_xobject Real.cos Real.sin Real.pi p.1 p.2.1 p.2.2.1 p.2.2.2.1
          p.2.2.2.2 rotation opacity) := by
    simp [embed_operations]
  have h4eq : embed_operations Real.cos Real.sin Real.pi
      (some (clip_x, clip_y, clip_w, clip_h)) placements rotation opacity =
      [⟨"q", []⟩,
       ⟨"re", [.num clip_x, .num clip_y, .num clip_w, .num clip_h]⟩,
       ⟨"W", []⟩, ⟨"n", []⟩]
      ++ embed_operations Real.cos Real.sin Real.pi none placements rotation
          opacity
      ++ [⟨"Q", []⟩] := by
    simp [embed_operations]
  refine ⟨fun nm x y sx sy => rfl, h2eq, ?_, h4eq, ?_⟩
  · rw [h2eq, hlen placements]
  · rw [h4eq, List.length_append, List.length_append, h2eq, hlen placements]
    show 4 + 4 * placements.length + 1 = 4 * placements.length + 5
    omega

/-- C9 counterexample: a Contents array holding a single stream whose
decompression failed yields the stream's raw bytes followed by a newline
(`[65, 10]`), not the empty byte sequence the claim's fail-soft wording
predicts (nor the raw bytes alone, as a purely separating newline
would give). -/
theorem extract_failed_stream_cex :
    extract_content_bytes (fun _ => none) 2 (.array [.stream [65] none]) =
      some [65, 10]
    ∧ some ([65, 10] : List ℕ) ≠ some ([] : List ℕ)
    ∧ some ([65, 10] : List ℕ) ≠ some ([65] : List ℕ) :=
  ⟨rfl, by decide, by decide⟩

/-- C9 amended: a stream whose decompression fails contributes its raw
bytes (not an error, not the empty sequence); an unresolvable reference
contributes the empty byte sequence; and a Contents array contributes the
extracted bytes of each element followed by a newline — a newline after
every element, including the last, rather than only between elements. -/
theorem extract_content_fail_soft (doc : ℕ → Option PdfObject) (fuel : ℕ) :
    (∀ (content : List ℕ) (decompressed : Option (List ℕ)),
      extract_content_bytes doc (fuel + 1) (.stream content decompressed) =
        some (decompressed.getD content))
    ∧ (∀ parts : List (List ℕ × Option (List ℕ)),
        extract_content_bytes doc (fuel + 2)
          (.array (parts.map (fun p => .stream p.1 p.2))) =
          some (parts.flatMap (fun p => p.2.getD p.1 ++ [10])))
    ∧ (∀ id, doc id = none →
        extract_content_bytes doc (fuel + 1) (.reference id) = some []) := by
  refine ⟨fun content decompressed => rfl, ?_,
    fun id h => by simp [extract_content_bytes, h]⟩
  intro parts
  induction parts with
  | nil => rfl
  | cons p ps ih =>
    simp only [extract_content_bytes, List.map_cons, List.foldr_cons] at ih ⊢
    rw [ih]
    simp

/-- Witness for C9: the reference clause of `extract_content_fail_soft`
applied to an object store that resolves nothing. -/
theorem extract_content_fail_soft_witness :
    extract_content_bytes (fun _ => none) 1 (.reference 0) = some [] :=
  (extract_content_fail_soft (fun _ => none) 0).2.2 0 rfl

/-- C10 counterexample: on a 100×100 page with requested scale (−2, −3),
`max_width = 1000` and aspect preservation, the resolved scale is
(−2, −2): scale_x is negative (the claim says scales are always ≥ 0) and
scale_y = −2 exceeds the requested scale_y = −3 (the claim says the
result never exceeds the requested scale). -/
theorem scale_invariant_cex :
    calculate_scale 100 100 negScaleOpts = (-2, -2)
    ∧ (calculate_scale 100 100 negScaleOpts).1 < 0
    ∧ negScaleOpts.scale.2 < (calculate_scale 100 100 negScaleOpts).2 := by
  have h : calculate_scale 100 100 negScaleOpts = (-2, -2) := by
    norm_num [calculate_scale, negScaleOpts, min_def]
  refine ⟨h, ?_, ?_⟩ <;> rw [h] <;> norm_num [negScaleOpts]

/-- C10 amended: provided the page dimensions are positive, the requested
scale is nonnegative and any max constraints are nonnegative, the
resolved scales are ≥ 0; a max dimension smaller than the unscaled page
dimension forces the resolved scale on that axis below 1; without aspect
preservation each axis never exceeds its own requested scale and, in
general (aspect-ratio propagation may raise one axis up to the other's
requested scale), neither axis exceeds the larger of the two requested
scales. -/
theorem scale_invariants (width height : ℚ) (options : EmbedOptions)
    (hw : 0 < width) (hh : 0 < height)
    (hsx : 0 ≤ options.scale.1) (hsy : 0 ≤ options.scale.2)
    (hmw : 0 ≤ options.max_width.getD 0)
    (hmh : 0 ≤ options.max_height.getD 0) :
    (0 ≤ (calculate_scale width height options).1
      ∧ 0 ≤ (calculate_scale width height options).2)
    ∧ (∀ m, options.max_width = some m → m < width →
        (calculate_scale width height options).1 < 1)
    ∧ (∀ m, options.max_height = some m → m < height →
        (calculate_scale width height options).2 < 1)
    ∧ (options.preserveAspect = false →
        (calculate_scale width height options).1 ≤ options.scale.1
        ∧ (calculate_scale width height options).2 ≤ options.scale.2)
    ∧ (calculate_scale width height options).1 ≤
        max options.scale.1 options.scale.2
    ∧ (calculate_scale width height options).2 ≤
        max options.scale.1 options.scale.2 := by
  cases hW : options.max_width with
  | some mw =>
    rw [hW] at hmw
    simp only [Option.getD_some] at hmw
    have hdw : 0 ≤ mw / width := div_nonneg hmw hw.le
    cases hH : options.max_height with
    | some mh =>
      rw [hH] at hmh
      simp only [Option.getD_some] at hmh
      have hdh : 0 ≤ mh / height := div_nonneg hmh hh.le
      cases hP : options.preserveAspect with
      | true =>
        have hr : calculate_scale width height options =
            (min (min options.scale.1 (mw / width)) (mh / height),
             min (min options.scale.1 (mw / width)) (mh / height)) := by
          simp [calculate_scale, hW, hH, hP]
        rw [hr]
        refine ⟨⟨le_min (le_min hsx hdw) hdh, le_min (le_min hsx hdw) hdh⟩,
          ?_, ?_, ?_, ?_, ?_⟩
        · intro m hm hlt
          obtain rfl : mw = m := Option.some.inj hm
          exact lt_of_le_of_lt ((min_le_left _ _).trans (min_le_right _ _))
            ((div_lt_one hw).mpr hlt)
        · intro m hm hlt
          obtain rfl : mh = m := Option.some.inj hm
          exact lt_of_le_of_lt (min_le_right _ _) ((div_lt_one hh).mpr hlt)
        · intro hcon
          exact absurd hcon (by simp)
        · exact ((min_le_left _ _).trans (min_le_left _ _)).trans
            (le_max_left _ _)
        · exact ((min_le_left _ _).trans (min_le_left _ _)).trans
            (le_max_left _ _)
      | false =>
        have hr : calculate_scale width height options =
            (min options.scale.1 (mw / width),
             min options.scale.2 (mh / height)) := by
          simp [calculate_scale, hW, hH, hP]
        rw [hr]
        refine ⟨⟨le_min hsx hdw, le_min hsy hdh⟩, ?_, ?_, ?_, ?_, ?_⟩
        · intro m hm hlt
          obtain rfl : mw = m := Option.some.inj hm
          exact lt_of_le_of_lt (min_le_right _ _) ((div_lt_one hw).mpr hlt)
        · intro m hm hlt
          obtain rfl : mh = m := Option.some.inj hm
          exact lt_of_le_of_lt (min_le_right _ _) ((div_lt_one hh).mpr hlt)
        · exact fun _ => ⟨min_le_left _ _, min_le_left _ _⟩
        · exact (min_le_left _ _).trans (le_max_left _ _)
        · exact (min_le_left _ _).trans (le_max_right _ _)
    | none =>
      cases hP : options.preserveAspect with
      | true =>
        have hr : calculate_scale width height options =
            (min options.scale.1 (mw / width),
             min options.scale.1 (mw / width)) := by
          simp [calculate_scale, hW, hH, hP]
        rw [hr]
        refine ⟨⟨le_min hsx hdw, le_min hsx hdw⟩, ?_, ?_, ?_, ?_, ?_⟩
        · intro m hm hlt
          obtain rfl : mw = m := Option.some.inj hm
          exact lt_of_le_of_lt (min_le_right _ _) ((div_lt_one hw).mpr hlt)
        · intro m hm
          exact absurd hm (by simp)
        · intro hcon
          exact absurd hcon (by simp)
        · exact (min_le_left _ _).trans (le_max_left _ _)
        · exact (min_le_left _ _).trans (le_max_left _ _)
      | false =>
        have hr : calculate_scale width height options =
            (min options.scale.1 (mw / width), options.scale.2) := by
          simp [calculate_scale, hW, hH, hP]
        rw [hr]
        refine ⟨⟨le_min hsx hdw, hsy⟩, ?_, ?_, ?_, ?_, ?_⟩
        · intro m hm hlt
          obtain rfl : mw = m := Option.some.inj hm
          exact lt_of_le_of_lt (min_le_right _ _) ((div_lt_one hw).mpr hlt)
        · intro m hm
          exact absurd hm (by simp)
        · exact fun _ => ⟨min_le_left _ _, le_refl _⟩
        · exact (min_le_left _ _).trans (le_max_left _ _)
        · exact le_max_right _ _
  | none =>
    cases hH : options.max_height with
    | some mh =>
      rw [hH] at hmh
      simp only [Option.getD_some] at hmh
      have hdh : 0 ≤ mh / height := div_nonneg hmh hh.le
      cases hP : options.preserveAspect with
      | true =>
        have hr : calculate_scale width height options =
            (min options.scale.2 (mh / height),
             min options.scale.2 (mh / height)) := by
          simp [calculate_scale, hW, hH, hP]
        rw [hr]
        refine ⟨⟨le_min hsy hdh, le_min hsy hdh⟩, ?_, ?_, ?_, ?_, ?_⟩
        · intro m hm
          exact absurd hm (by simp)
        · intro m hm hlt
          obtain rfl : mh = m := Option.some.inj hm
          exact lt_of_le_of_lt (min_le_right _ _) ((div_lt_one hh).mpr hlt)
        · intro hcon
          exact absurd hcon (by simp)
        · exact (min_le_left _ _).trans (le_max_right _ _)
        · exact (min_le_left _ _).trans (le_max_right _ _)
      | false =>
        have hr : calculate_scale width height options =
            (options.scale.1, min options.scale.2 (mh / height)) := by
          simp [calculate_scale, hW, hH, hP]
        rw [hr]
        refine ⟨⟨hsx, le_min hsy hdh⟩, ?_, ?_, ?_, ?_, ?_⟩
        · intro m hm
          exact absurd hm (by simp)
        · intro m hm hlt
          obtain rfl : mh = m := Option.some.inj hm
          exact lt_of_le_of_lt (min_le_right _ _) ((div_lt_one hh).mpr hlt)
        · exact fun _ => ⟨le_refl _, min_le_left _ _⟩
        · exact le_max_left _ _
        · exact (min_le_left _ _).trans (le_max_right _ _)
    | none =>
      have hr : calculate_scale width height options =
          (options.scale.1, options.scale.2) := by
        simp [calculate_scale, hW, hH]
      rw [hr]
      refine ⟨⟨hsx, hsy⟩, ?_, ?_, fun _ => ⟨le_refl _, le_refl _⟩,
        le_max_left _ _, le_max_right _ _⟩
      · intro m hm
        exact absurd hm (by simp)
      · intro m hm
        exact absurd hm (by simp)

/-- Witness for C10: `scale_invariants` applied to a 100×100 page under
`thumbOpts`. -/
theorem scale_invariants_witness :
    (0 ≤ (calculate_scale 100 100 thumbOpts).1
      ∧ 0 ≤ (calculate_scale 100 100 thumbOpts).2)
    ∧ (calculate_scale 100 100 thumbOpts).1 < 1 := by
  have h := scale_invariants 100 100 thumbOpts (by decide) (by decide)
    (by decide) (by decide) (by decide) (by decide)
  exact ⟨h.1, h.2.1 50 rfl (by decide)⟩

end Hipdf
